import Mathlib

/-!
Shallow embedding of `learn2learn/data/models.py`: tensors, the in-place
initializer functions (`truncated_normal_`, `maml_fc_init_`, `maml_init_`),
the framework layers they touch (linear, conv, batch norm, max pooling),
and the module constructors (`AddBias`, `MAMLLinearBlock`, `MAMLConvBlock`,
`MAMLConvBase`, `OmniglotCNN`, `MiniImagenetCNN`, `MAMLFC`).

Random sampling is modelled by an explicit entropy source: a record of
streams of real draws.  The stream `trunc` stands for draws of
`truncnorm.rvs(-2, 2)` (so theorems assume its values lie in `[-2, 2]`),
`unif` for draws uniform on `[-1, 1]` (used, after scaling, by
`nn.init.xavier_uniform_` and by the framework's default layer
initialization), and `gauss` for standard normal draws
(`tensor.normal_()`).  Each construction hands disjoint sub-streams to its
children through `Entropy.child`.
-/

namespace Learn2Learn

/-- A tensor: a shape together with a flat (row-major) data function.  Only
indices below `shape.prod` are meaningful. -/
structure Tensor where
  shape : List ℕ
  data : ℕ → ℝ

/-- Number of elements of a tensor. -/
def Tensor.numel (t : Tensor) : ℕ := t.shape.prod

/-- `tensor.view(-1, k)`: reinterpret the flat data with the last dimension
forced to `k`. -/
def Tensor.view2 (t : Tensor) (k : ℕ) : Tensor :=
  { shape := [t.numel / k, k], data := t.data }

/-- Source of randomness: streams of draws for the three sampling
primitives the file uses. -/
structure Entropy where
  trunc : ℕ → ℝ
  unif : ℕ → ℝ
  gauss : ℕ → ℝ

/-- Disjoint sub-stream handed to the `k`-th child of a construction. -/
def Entropy.child (e : Entropy) (k : ℕ) : Entropy :=
  { trunc := fun i => e.trunc (Nat.pair k i)
    unif := fun i => e.unif (Nat.pair k i)
    gauss := fun i => e.gauss (Nat.pair k i) }

/-- The guarantees of the samplers: truncated-normal draws lie in
`[-2, 2]`, uniform draws lie in `[-1, 1]`. -/
def Entropy.Bounded (e : Entropy) : Prop :=
  (∀ i, |e.trunc i| ≤ 2) ∧ (∀ i, |e.unif i| ≤ 1)

theorem Entropy.Bounded.child {e : Entropy} (h : e.Bounded) (k : ℕ) :
    (e.child k).Bounded :=
  ⟨fun i => h.1 (Nat.pair k i), fun i => h.2 (Nat.pair k i)⟩

/-- `truncated_normal_(tensor, mean, std)`: draw `truncnorm.rvs(-2, 2)`
samples (the stream `sample`), scale by `std`, shift by `mean`, and copy
the result into the tensor, which is returned. -/
def truncated_normal_ (tensor : Tensor) (mean std : ℝ) (sample : ℕ → ℝ) : Tensor :=
  { shape := tensor.shape, data := fun i => mean + std * sample i }

/-- `nn.init.constant_(tensor, c)`. -/
def constant_ (tensor : Tensor) (c : ℝ) : Tensor :=
  { shape := tensor.shape, data := fun _ => c }

/-- `tensor.normal_()`: fill with standard normal draws. -/
def normal_ (tensor : Tensor) (sample : ℕ → ℝ) : Tensor :=
  { shape := tensor.shape, data := fun i => sample i }

/-- `tensor.mul_(c)`: in-place scalar multiplication. -/
def mulScalar_ (tensor : Tensor) (c : ℝ) : Tensor :=
  { shape := tensor.shape, data := fun i => tensor.data i * c }

/-- PyTorch's `_calculate_fan_in_and_fan_out` on a weight shape:
`(fan_in, fan_out)`. -/
def fanInOut : List ℕ → ℕ × ℕ
  | fo :: fi :: rest => (fi * rest.prod, fo * rest.prod)
  | _ => (0, 0)

/-- The bound `gain * sqrt(6 / (fan_in + fan_out))` of
`nn.init.xavier_uniform_` for a given weight shape. -/
noncomputable def xavierBound (gain : ℝ) (shape : List ℕ) : ℝ :=
  gain * Real.sqrt (6 / (((fanInOut shape).1 : ℝ) + ((fanInOut shape).2 : ℝ)))

/-- `nn.init.xavier_uniform_(tensor, gain)`: fill with uniform draws on
`[-a, a]` where `a` is `xavierBound`; `sample` is the underlying uniform
`[-1, 1]` stream. -/
noncomputable def xavier_uniform_ (tensor : Tensor) (gain : ℝ) (sample : ℕ → ℝ) : Tensor :=
  { shape := tensor.shape, data := fun i => xavierBound gain tensor.shape * sample i }

/-- A Python module as the two initializer helpers see it: an optional
`weight` attribute and an optional `bias` attribute, each of which, when
present, holds either `None` or a tensor.  `none` means the attribute is
absent; `some none` means it is present but set to `None`. -/
structure PyModule where
  weight : Option (Option Tensor)
  bias : Option (Option Tensor)

/-- `maml_fc_init_(module)`: when the module has a non-`None` weight,
truncated-normal-initialize it with mean `0.0`, std `0.01`; when it has a
non-`None` bias, zero it; leave anything else untouched and return the
module. -/
def maml_fc_init_ (module : PyModule) (e : Entropy) : PyModule :=
  { weight :=
      match module.weight with
      | some (some w) => some (some (truncated_normal_ w 0 0.01 (e.child 0).trunc))
      | o => o
    bias :=
      match module.bias with
      | some (some b) => some (some (constant_ b 0))
      | o => o }

/-- `maml_init_(module)`: Xavier-uniform-initialize `module.weight.data`
with gain `1.0`, zero `module.bias.data`.  Accessing `.data` on a missing
or `None` attribute raises `AttributeError`, modelled by `Except.error`. -/
noncomputable def maml_init_ (module : PyModule) (e : Entropy) : Except String PyModule :=
  match module.weight with
  | some (some w) =>
    match module.bias with
    | some (some b) =>
        .ok { weight := some (some (xavier_uniform_ w 1 (e.child 0).unif))
              bias := some (some (constant_ b 0)) }
    | _ => .error "AttributeError: bias"
  | _ => .error "AttributeError: weight"

/-- `nn.Linear`: dimensions, weight of shape `[outFeatures, inFeatures]`,
optional bias of shape `[outFeatures]`. -/
structure Linear where
  inFeatures : ℕ
  outFeatures : ℕ
  weight : Tensor
  bias : Option Tensor

/-- `nn.Linear(inF, outF, bias)` with PyTorch's default initialization:
weight and bias uniform on `[-1/sqrt(fan_in), 1/sqrt(fan_in)]`. -/
noncomputable def Linear.make (inF outF : ℕ) (withBias : Bool) (e : Entropy) : Linear :=
  { inFeatures := inF
    outFeatures := outF
    weight := { shape := [outF, inF], data := fun i => 1 / Real.sqrt (inF : ℝ) * (e.child 0).unif i }
    bias :=
      if withBias then
        some { shape := [outF], data := fun i => 1 / Real.sqrt (inF : ℝ) * (e.child 1).unif i }
      else none }

/-- The attribute view of a linear layer: both attributes exist; the bias
attribute is `None` exactly when the layer was built without bias. -/
def Linear.toPy (l : Linear) : PyModule :=
  { weight := some (some l.weight), bias := some l.bias }

/-- Fold the result of an in-place initializer back into the layer. -/
def Linear.fromPy (l : Linear) (p : PyModule) : Linear :=
  { l with
    weight := match p.weight with | some (some w) => w | _ => l.weight
    bias := match p.bias with | some b => b | none => l.bias }

/-- `Linear.forward`: `y = x Wᵀ + b` on a batch `x` of shape `[n, inF]`. -/
noncomputable def Linear.forward (l : Linear) (x : Tensor) : Tensor :=
  { shape :=
      match x.shape with
      | [n, _] => [n, l.outFeatures]
      | _ => []
    data := fun k =>
      let i := k / l.outFeatures
      let o := k % l.outFeatures
      (match l.bias with | some b => b.data o | none => 0) +
        ∑ t ∈ Finset.range l.inFeatures,
          l.weight.data (o * l.inFeatures + t) * x.data (i * l.inFeatures + t) }

/-- `nn.Conv2d`: channels, kernel, stride, padding, weight of shape
`[outChannels, inChannels, kh, kw]`, optional bias. -/
structure Conv2d where
  inChannels : ℕ
  outChannels : ℕ
  kernel : ℕ × ℕ
  stride : ℕ × ℕ
  padding : ℕ
  weight : Tensor
  bias : Option Tensor

/-- `nn.Conv2d(...)` with PyTorch's default initialization (uniform on
`[-1/sqrt(fan_in), 1/sqrt(fan_in)]` for weight and bias). -/
noncomputable def Conv2d.make (inC outC : ℕ) (kernel stride : ℕ × ℕ) (padding : ℕ)
    (withBias : Bool) (e : Entropy) : Conv2d :=
  { inChannels := inC
    outChannels := outC
    kernel := kernel
    stride := stride
    padding := padding
    weight :=
      { shape := [outC, inC, kernel.1, kernel.2]
        data := fun i => 1 / Real.sqrt ((inC * kernel.1 * kernel.2 : ℕ) : ℝ) * (e.child 0).unif i }
    bias :=
      if withBias then
        some { shape := [outC]
               data := fun i => 1 / Real.sqrt ((inC * kernel.1 * kernel.2 : ℕ) : ℝ) * (e.child 1).unif i }
      else none }

/-- The attribute view of a convolution: both attributes exist. -/
def Conv2d.toPy (c : Conv2d) : PyModule :=
  { weight := some (some c.weight), bias := some c.bias }

/-- Fold the result of an in-place initializer back into the layer. -/
def Conv2d.fromPy (c : Conv2d) (p : PyModule) : Conv2d :=
  { c with
    weight := match p.weight with | some (some w) => w | _ => c.weight
    bias := match p.bias with | some b => b | none => c.bias }

/-- `Conv2d.forward` on a batch of shape `[n, inC, h, w]`: zero padding,
output spatial size `(d + 2 padding - kernel) / stride + 1`. -/
noncomputable def Conv2d.forward (c : Conv2d) (x : Tensor) : Tensor :=
  match x.shape with
  | [n, cIn, h, w] =>
      let ho := (h + 2 * c.padding - c.kernel.1) / c.stride.1 + 1
      let wo := (w + 2 * c.padding - c.kernel.2) / c.stride.2 + 1
      let xpad : ℕ → ℕ → ℕ → ℕ → ℝ := fun b ci i j =>
        if c.padding ≤ i ∧ i < h + c.padding ∧ c.padding ≤ j ∧ j < w + c.padding then
          x.data (((b * cIn + ci) * h + (i - c.padding)) * w + (j - c.padding))
        else 0
      { shape := [n, c.outChannels, ho, wo]
        data := fun k =>
          let b := k / (c.outChannels * ho * wo)
          let r := k % (c.outChannels * ho * wo)
          let co := r / (ho * wo)
          let r2 := r % (ho * wo)
          let i := r2 / wo
          let j := r2 % wo
          (match c.bias with | some bb => bb.data co | none => 0) +
            ∑ ci ∈ Finset.range cIn, ∑ ki ∈ Finset.range c.kernel.1,
              ∑ kj ∈ Finset.range c.kernel.2,
                c.weight.data (((co * c.inChannels + ci) * c.kernel.1 + ki) * c.kernel.2 + kj) *
                  xpad b ci (i * c.stride.1 + ki) (j * c.stride.2 + kj) }
  | _ => { shape := [], data := fun _ => 0 }

/-- `nn.MaxPool2d(kernel_size, stride, ceil_mode)`; padding defaults to
zero. -/
structure MaxPool2d where
  kernel : ℕ × ℕ
  stride : ℕ × ℕ
  padding : ℕ
  ceilMode : Bool

/-- `MaxPool2d.forward` on `[n, c, h, w]` with floor mode (`ceil_mode`
is `False` in this file) and zero padding. -/
def MaxPool2d.forward (m : MaxPool2d) (x : Tensor) : Tensor :=
  match x.shape with
  | [n, ch, h, w] =>
      let ho := (h + 2 * m.padding - m.kernel.1) / m.stride.1 + 1
      let wo := (w + 2 * m.padding - m.kernel.2) / m.stride.2 + 1
      { shape := [n, ch, ho, wo]
        data := fun k =>
          let b := k / (ch * ho * wo)
          let r := k % (ch * ho * wo)
          let cc := r / (ho * wo)
          let r2 := r % (ho * wo)
          let i := r2 / wo
          let j := r2 % wo
          let cell : ℕ → ℕ → ℝ := fun ki kj =>
            x.data (((b * ch + cc) * h + (i * m.stride.1 + ki)) * w + (j * m.stride.2 + kj))
          ((List.range (m.kernel.1 * m.kernel.2)).map
              (fun t => cell (t / m.kernel.2) (t % m.kernel.2))).foldl max (cell 0 0) }
  | _ => { shape := [], data := fun _ => 0 }

/-- `nn.ReLU`. -/
def reluForward (x : Tensor) : Tensor :=
  { shape := x.shape, data := fun i => max (x.data i) 0 }

/-- `nn.BatchNorm1d` / `nn.BatchNorm2d`: configuration, affine parameters
(`some` exactly when `affine`), and running statistics (`some` exactly
when `track_running_stats`). -/
structure BatchNorm where
  numFeatures : ℕ
  eps : ℝ
  momentum : ℝ
  affine : Bool
  trackRunningStats : Bool
  weight : Option Tensor
  bias : Option Tensor
  runningMean : Option Tensor
  runningVar : Option Tensor

/-- Construct a batch-norm layer: affine weight starts at ones, affine
bias at zeros, running mean at zeros, running variance at ones. -/
def BatchNorm.make (numFeatures : ℕ) (eps momentum : ℝ) (affine trackRunningStats : Bool) :
    BatchNorm :=
  { numFeatures := numFeatures
    eps := eps
    momentum := momentum
    affine := affine
    trackRunningStats := trackRunningStats
    weight := if affine then some { shape := [numFeatures], data := fun _ => 1 } else none
    bias := if affine then some { shape := [numFeatures], data := fun _ => 0 } else none
    runningMean := if trackRunningStats then some { shape := [numFeatures], data := fun _ => 0 } else none
    runningVar := if trackRunningStats then some { shape := [numFeatures], data := fun _ => 1 } else none }

/-- Per-channel mean of the current batch: for shape `d0 :: c :: rest`,
channel `j` averages over the batch dimension and all trailing
dimensions. -/
noncomputable def batchMean (x : Tensor) (j : ℕ) : ℝ :=
  let d0 := x.shape.headD 0
  let c := x.shape.tail.headD 0
  let inner := x.shape.tail.tail.prod
  (∑ i ∈ Finset.range d0, ∑ r ∈ Finset.range inner, x.data ((i * c + j) * inner + r)) /
    ((d0 * inner : ℕ) : ℝ)

/-- Per-channel (biased) variance of the current batch. -/
noncomputable def batchVar (x : Tensor) (j : ℕ) : ℝ :=
  let d0 := x.shape.headD 0
  let c := x.shape.tail.headD 0
  let inner := x.shape.tail.tail.prod
  (∑ i ∈ Finset.range d0, ∑ r ∈ Finset.range inner,
      (x.data ((i * c + j) * inner + r) - batchMean x j) ^ 2) /
    ((d0 * inner : ℕ) : ℝ)

/-- Normalize with the given per-channel mean and variance:
`γ * (x - μ) / sqrt(σ² + eps) + β`. -/
noncomputable def BatchNorm.normalizeWith (bn : BatchNorm) (meanf varf : ℕ → ℝ) (x : Tensor) :
    Tensor :=
  { shape := x.shape
    data := fun k =>
      let c := x.shape.tail.headD 0
      let inner := x.shape.tail.tail.prod
      let j := k / inner % c
      (match bn.weight with | some w => w.data j | none => 1) *
          ((x.data k - meanf j) / Real.sqrt (varf j + bn.eps)) +
        (match bn.bias with | some b => b.data j | none => 0) }

/-- Normalize with the statistics of the current batch. -/
noncomputable def BatchNorm.batchNormalize (bn : BatchNorm) (x : Tensor) : Tensor :=
  bn.normalizeWith (batchMean x) (batchVar x) x

/-- One forward call of a batch-norm layer, following
`_BatchNorm.forward`: batch statistics are used when training or when no
running statistics exist; running statistics are updated (with the
unbiased batch variance) only when training and tracking. -/
noncomputable def BatchNorm.step (bn : BatchNorm) (training : Bool) (x : Tensor) :
    Tensor × BatchNorm :=
  let useBatch := training || (bn.runningMean.isNone && bn.runningVar.isNone)
  let meanf : ℕ → ℝ :=
    if useBatch then batchMean x
    else fun j => (bn.runningMean.getD { shape := [], data := fun _ => 0 }).data j
  let varf : ℕ → ℝ :=
    if useBatch then batchVar x
    else fun j => (bn.runningVar.getD { shape := [], data := fun _ => 0 }).data j
  let m := x.shape.headD 0 * x.shape.tail.tail.prod
  let tracked :=
    if training && bn.trackRunningStats then
      { bn with
        runningMean := bn.runningMean.map (fun rm =>
          { shape := rm.shape
            data := fun j => (1 - bn.momentum) * rm.data j + bn.momentum * batchMean x j })
        runningVar := bn.runningVar.map (fun rv =>
          { shape := rv.shape
            data := fun j =>
              (1 - bn.momentum) * rv.data j +
                bn.momentum * (batchVar x j * ((m : ℝ) / ((m - 1 : ℕ) : ℝ))) }) }
    else bn
  (bn.normalizeWith meanf varf x, tracked)

/-- `AddBias`: one learnable vector, initialized to zeros. -/
structure AddBias where
  bias : Tensor

/-- `AddBias(size)`. -/
def AddBias.construct (size : ℕ) : AddBias :=
  { bias := { shape := [size], data := fun _ => 0 } }

/-- `MAMLLinearBlock`: linear layer plus batch norm (ReLU is stateless). -/
structure MAMLLinearBlock where
  normalize : BatchNorm
  linear : Linear

/-- `MAMLLinearBlock(input_size, output_size)`: batch norm with
`affine=True`, `momentum=0.999`, `eps=1e-3`, `track_running_stats=False`;
linear layer passed through `maml_fc_init_`. -/
noncomputable def MAMLLinearBlock.construct (inputSize outputSize : ℕ) (e : Entropy) :
    MAMLLinearBlock :=
  let lin := Linear.make inputSize outputSize true (e.child 0)
  { normalize := BatchNorm.make outputSize 1e-3 0.999 true false
    linear := Linear.fromPy lin (maml_fc_init_ lin.toPy (e.child 1)) }

/-- `MAMLLinearBlock.forward`: linear, batch norm, ReLU. -/
noncomputable def MAMLLinearBlock.forward (blk : MAMLLinearBlock) (training : Bool) (x : Tensor) :
    Tensor :=
  reluForward (blk.normalize.step training (blk.linear.forward x)).1

/-- Python's `int(...)` on a rational: truncation toward zero. -/
def pyInt (q : ℚ) : ℤ :=
  if 0 ≤ q then ⌊q⌋ else ⌈q⌉

/-- `MAMLConvBlock`: optional pooling (`none` models the identity
`lambda x: x`), batch norm, convolution. -/
structure MAMLConvBlock where
  maxPool : Option MaxPool2d
  normalize : BatchNorm
  conv : Conv2d

/-- `MAMLConvBlock(in_channels, out_channels, kernel_size, max_pool,
max_pool_factor)`: `stride = int(2 * max_pool_factor)`; with pooling the
pool uses that value as kernel and stride and the convolution gets stride
1, otherwise pooling is the identity and the convolution keeps the
stride; the convolution uses padding 1 and bias and is passed through
`maml_init_`. -/
noncomputable def MAMLConvBlock.construct (inC outC : ℕ) (kernel : ℕ × ℕ) (maxPool : Bool)
    (maxPoolFactor : ℚ) (e : Entropy) : MAMLConvBlock :=
  let s := (pyInt (2 * maxPoolFactor)).toNat
  let convStride : ℕ × ℕ := if maxPool then (1, 1) else (s, s)
  let conv0 := Conv2d.make inC outC kernel convStride 1 true (e.child 0)
  { maxPool :=
      if maxPool then some { kernel := (s, s), stride := (s, s), padding := 0, ceilMode := false }
      else none
    normalize := BatchNorm.make outC 1e-3 0.999 true false
    conv :=
      match maml_init_ conv0.toPy (e.child 1) with
      | .ok p => Conv2d.fromPy conv0 p
      | .error _ => conv0 }

/-- `MAMLConvBlock.forward`: convolution, batch norm, ReLU, pooling. -/
noncomputable def MAMLConvBlock.forward (blk : MAMLConvBlock) (training : Bool) (x : Tensor) :
    Tensor :=
  let y := reluForward (blk.normalize.step training (blk.conv.forward x)).1
  match blk.maxPool with
  | some mp => mp.forward y
  | none => y

/-- The trailing `layers - 1` hidden-to-hidden blocks of a
`MAMLConvBase`, numbered from entropy child `idx`. -/
noncomputable def convTail (hidden : ℕ) (maxPool : Bool) (maxPoolFactor : ℚ) (e : Entropy) :
    ℕ → ℕ → List MAMLConvBlock
  | 0, _ => []
  | k + 1, idx =>
      MAMLConvBlock.construct hidden hidden (3, 3) maxPool maxPoolFactor (e.child idx) ::
        convTail hidden maxPool maxPoolFactor e k (idx + 1)

/-- `MAMLConvBase`: a sequential stack of conv blocks.  The
`output_size` argument of the Python constructor is accepted and
ignored, as in the source. -/
structure MAMLConvBase where
  blocks : List MAMLConvBlock

/-- `MAMLConvBase(output_size, hidden, channels, max_pool, layers,
mp_factor)`: one `channels → hidden` block followed by `layers - 1`
`hidden → hidden` blocks, all with kernel `(3, 3)`. -/
noncomputable def MAMLConvBase.construct (outputSize hidden channels : ℕ) (maxPool : Bool)
    (layers : ℕ) (mpFactor : ℚ) (e : Entropy) : MAMLConvBase :=
  { blocks :=
      MAMLConvBlock.construct channels hidden (3, 3) maxPool mpFactor (e.child 0) ::
        convTail hidden maxPool mpFactor e (layers - 1) 1 }

/-- `MAMLConvBase.forward`: fold the blocks over the input. -/
noncomputable def MAMLConvBase.forward (base : MAMLConvBase) (training : Bool) (x : Tensor) :
    Tensor :=
  base.blocks.foldl (fun acc blk => blk.forward training acc) x

/-- `OmniglotCNN`: conv base without pooling plus a final linear layer
whose weight is overwritten by `normal_()` and whose bias is multiplied
by `0.0`. -/
structure OmniglotCNN where
  hiddenSize : ℕ
  base : MAMLConvBase
  linear : Linear

/-- `OmniglotCNN(output_size, hidden_size, layers)`. -/
noncomputable def OmniglotCNN.construct (outputSize hiddenSize layers : ℕ) (e : Entropy) :
    OmniglotCNN :=
  let lin := Linear.make hiddenSize outputSize true (e.child 1)
  { hiddenSize := hiddenSize
    base := MAMLConvBase.construct hiddenSize hiddenSize 1 false layers 1 (e.child 0)
    linear :=
      { lin with
        weight := normal_ lin.weight (e.child 2).gauss
        bias := lin.bias.map (fun b => mulScalar_ b 0) } }

/-- `MiniImagenetCNN`: conv base with pooling, `mp_factor = 4 // layers`,
plus a `25 * hidden_size → output_size` linear layer passed through
`maml_init_`. -/
structure MiniImagenetCNN where
  hiddenSize : ℕ
  base : MAMLConvBase
  linear : Linear

/-- `MiniImagenetCNN(output_size, hidden_size, layers)`. -/
noncomputable def MiniImagenetCNN.construct (outputSize hiddenSize layers : ℕ) (e : Entropy) :
    MiniImagenetCNN :=
  let lin := Linear.make (25 * hiddenSize) outputSize true (e.child 1)
  { hiddenSize := hiddenSize
    base := MAMLConvBase.construct hiddenSize hiddenSize 3 true layers ((4 / layers : ℕ) : ℚ)
      (e.child 0)
    linear :=
      match maml_init_ lin.toPy (e.child 2) with
      | .ok p => Linear.fromPy lin p
      | .error _ => lin }

/-- `MiniImagenetCNN.forward`: conv base, flatten to `25 * hidden_size`
features, final linear layer. -/
noncomputable def MiniImagenetCNN.forward (net : MiniImagenetCNN) (training : Bool) (x : Tensor) :
    Tensor :=
  net.linear.forward ((net.base.forward training x).view2 (25 * net.hiddenSize))

/-- The hidden-to-hidden blocks of a `MAMLFC`, one per consecutive pair
of `sizes`, numbered from entropy child `idx`. -/
noncomputable def fcBlocks (e : Entropy) : List (ℕ × ℕ) → ℕ → List MAMLLinearBlock
  | [], _ => []
  | p :: ps, idx => MAMLLinearBlock.construct p.1 p.2 (e.child idx) :: fcBlocks e ps (idx + 1)

/-- `MAMLFC`: a stack of linear blocks followed by a plain output linear
layer. -/
structure MAMLFC where
  blocks : List MAMLLinearBlock
  out : Linear
  inputSize : ℕ

/-- `MAMLFC(input_size, output_size, sizes)`: `sizes[0]` raises
`IndexError` on an empty list; otherwise one `input_size → sizes[0]`
block, one block per consecutive pair of `sizes`, and a
`sizes[-1] → output_size` linear layer passed through `maml_fc_init_`. -/
noncomputable def MAMLFC.construct (inputSize outputSize : ℕ) (sizes : List ℕ) (e : Entropy) :
    Except String MAMLFC :=
  match sizes with
  | [] => .error "IndexError: list index out of range"
  | s0 :: rest =>
      let pairs := ((s0 :: rest).dropLast).zip rest
      let last := rest.getLastD s0
      let lin := Linear.make last outputSize true (e.child (s0 :: rest).length)
      .ok
        { blocks :=
            MAMLLinearBlock.construct inputSize s0 (e.child 0) :: fcBlocks e pairs 1
          out := Linear.fromPy lin (maml_fc_init_ lin.toPy (e.child ((s0 :: rest).length + 1)))
          inputSize := inputSize }

/-- `MAMLFC.forward`: flatten to `input_size` features, then the blocks,
then the output layer. -/
noncomputable def MAMLFC.forward (fc : MAMLFC) (training : Bool) (x : Tensor) : Tensor :=
  fc.out.forward
    (fc.blocks.foldl (fun acc blk => blk.forward training acc) (x.view2 fc.inputSize))

/-- The value `int(2 * max_pool_factor)` computed by
`MAMLConvBlock.__init__` and used as pool kernel, pool stride, and (when
pooling is off) convolution stride. -/
def blockStride (maxPoolFactor : ℚ) : ℕ :=
  (pyInt (2 * maxPoolFactor)).toNat

/-- A concrete entropy source: every truncated-normal draw is `2`, every
uniform draw is `0`, every normal draw is `0`. -/
def entropyA : Entropy :=
  { trunc := fun _ => 2, unif := fun _ => 0, gauss := fun _ => 0 }

/-- A concrete entropy source: every truncated-normal draw is `0`, every
uniform draw is `1`, every normal draw is `1`. -/
def entropyB : Entropy :=
  { trunc := fun _ => 0, unif := fun _ => 1, gauss := fun _ => 1 }

/-- The initialization invariant that actually holds of the library (the
amended claim C1): under a bounded entropy source, every weight the
library explicitly initializes at construction is truncated-normal
(mean 0, std 0.01, so within `[-0.02, 0.02]`) except convolutional
weights and `MiniImagenetCNN`'s output layer, which are Xavier-uniform
(within the Xavier bound of their shape), and `OmniglotCNN`'s output
layer, whose weight is a raw standard-normal draw.  In particular
`MAMLFC`'s output layer is truncated-normal initialized, not
Xavier-uniform. -/
def C1Prop (e : Entropy) : Prop :=
  (∀ inS outS : ℕ,
      (MAMLLinearBlock.construct inS outS e).linear.weight =
        truncated_normal_ (Linear.make inS outS true (e.child 0)).weight 0 0.01
          ((e.child 1).child 0).trunc ∧
      ∀ i, |(MAMLLinearBlock.construct inS outS e).linear.weight.data i| ≤ 2 * 0.01) ∧
  (∀ (inC outC : ℕ) (kern : ℕ × ℕ) (mp : Bool) (mpf : ℚ),
      (MAMLConvBlock.construct inC outC kern mp mpf e).conv.weight =
        xavier_uniform_
          (Conv2d.make inC outC kern
            (if mp then (1, 1) else (blockStride mpf, blockStride mpf)) 1 true
            (e.child 0)).weight 1 ((e.child 1).child 0).unif ∧
      ∀ i, |(MAMLConvBlock.construct inC outC kern mp mpf e).conv.weight.data i| ≤
        xavierBound 1 [outC, inC, kern.1, kern.2]) ∧
  (∀ (inS outS s0 : ℕ) (rest : List ℕ),
      ∃ fc, MAMLFC.construct inS outS (s0 :: rest) e = .ok fc ∧
        fc.out.weight =
          truncated_normal_
            (Linear.make (rest.getLastD s0) outS true (e.child (s0 :: rest).length)).weight 0 0.01
            ((e.child ((s0 :: rest).length + 1)).child 0).trunc ∧
        ∀ i, |fc.out.weight.data i| ≤ 2 * 0.01) ∧
  (∀ outS hid lay : ℕ,
      (MiniImagenetCNN.construct outS hid lay e).linear.weight =
        xavier_uniform_ (Linear.make (25 * hid) outS true (e.child 1)).weight 1
          ((e.child 2).child 0).unif ∧
      ∀ i, |(MiniImagenetCNN.construct outS hid lay e).linear.weight.data i| ≤
        xavierBound 1 [outS, 25 * hid]) ∧
  (∀ outS hid lay : ℕ, ∀ i,
      (OmniglotCNN.construct outS hid lay e).linear.weight.data i = (e.child 2).gauss i)

/-- The behaviour of `maml_fc_init_` claimed by C7: truncated-normal
weight (mean 0, std 0.01) when a weight is present, zeroed bias when a
bias is present, no-op on absent attributes; on a `(64, 64)` weight and
`(64,)` bias the result has all weight entries in `[-0.02, 0.02]` and an
exactly zero bias. -/
def C7Prop (e : Entropy) (fw fb : ℕ → ℝ) (wo bo : Option (Option Tensor)) : Prop :=
  (∀ (w : Tensor) (b : Option (Option Tensor)),
      (maml_fc_init_ { weight := some (some w), bias := b } e).weight =
        some (some (truncated_normal_ w 0 0.01 (e.child 0).trunc))) ∧
  (∀ (a : Option (Option Tensor)) (b : Tensor),
      (maml_fc_init_ { weight := a, bias := some (some b) } e).bias =
        some (some (constant_ b 0))) ∧
  (maml_fc_init_ { weight := none, bias := bo } e).weight = none ∧
  (maml_fc_init_ { weight := wo, bias := none } e).bias = none ∧
  (∃ w2,
      (maml_fc_init_
          { weight := some (some { shape := [64, 64], data := fw })
            bias := some (some { shape := [64], data := fb }) } e).weight = some (some w2) ∧
      w2.shape = [64, 64] ∧ ∀ i, |w2.data i| ≤ 0.02) ∧
  (∃ b2,
      (maml_fc_init_
          { weight := some (some { shape := [64, 64], data := fw })
            bias := some (some { shape := [64], data := fb }) } e).bias = some (some b2) ∧
      b2.shape = [64] ∧ ∀ j, b2.data j = 0)

section Lemmas

/-- The first component of a batch-norm step keeps the input's shape. -/
theorem BatchNorm.step_fst_shape (bn : BatchNorm) (training : Bool) (x : Tensor) :
    ((bn.step training x).1).shape = x.shape := rfl

/-- ReLU keeps the shape. -/
theorem reluForward_shape (x : Tensor) : (reluForward x).shape = x.shape := rfl

/-- Shape of a linear forward on a `[n, m]` batch. -/
theorem Linear.forward_batch_shape (l : Linear) (x : Tensor) {n m : ℕ} (h : x.shape = [n, m]) :
    (l.forward x).shape = [n, l.outFeatures] := by
  obtain ⟨sh, d⟩ := x
  change sh = [n, m] at h
  subst h
  rfl

/-- Shape of a linear-block forward on a `[n, m]` batch. -/
theorem MAMLLinearBlock.forward_shape (inS outS : ℕ) (e : Entropy) (training : Bool)
    (x : Tensor) {n m : ℕ} (hx : x.shape = [n, m]) :
    ((MAMLLinearBlock.construct inS outS e).forward training x).shape = [n, outS] := by
  obtain ⟨sh, d⟩ := x
  change sh = [n, m] at hx
  subst hx
  rfl

/-- Shape of a pooled conv-block forward on a `[n, ci, h, w]` batch. -/
theorem MAMLConvBlock.forward_shape_pool (inC outC : ℕ) (mpf : ℚ) (e : Entropy)
    (training : Bool) (x : Tensor) {n ci h w : ℕ} (hx : x.shape = [n, ci, h, w]) :
    ((MAMLConvBlock.construct inC outC (3, 3) true mpf e).forward training x).shape =
      [n, outC, ((h + 2 - 3) / 1 + 1 - blockStride mpf) / blockStride mpf + 1,
        ((w + 2 - 3) / 1 + 1 - blockStride mpf) / blockStride mpf + 1] := by
  obtain ⟨sh, d⟩ := x
  change sh = [n, ci, h, w] at hx
  subst hx
  rfl

end Lemmas

/-- Claim C2: `truncated_normal_(tensor, mean, std)` fills the tensor
with truncated-normal draws on `[-2, 2]` scaled by `std` and shifted by
`mean`, preserves the shape, and every resulting value lies between
`mean - 2 * std` and `mean + 2 * std`; nothing rejects `std ≤ 0` (the
statement holds for every real `std`, and the witness instantiates it at
a negative one). -/
theorem C2_truncated_normal (t : Tensor) (mean std : ℝ) (sample : ℕ → ℝ)
    (h : ∀ i, |sample i| ≤ 2) :
    (truncated_normal_ t mean std sample).shape = t.shape ∧
      (∀ i, (truncated_normal_ t mean std sample).data i = mean + std * sample i) ∧
      ∀ i,
        min (mean - 2 * std) (mean + 2 * std) ≤ (truncated_normal_ t mean std sample).data i ∧
          (truncated_normal_ t mean std sample).data i ≤
            max (mean - 2 * std) (mean + 2 * std) := by
  refine ⟨rfl, fun i => rfl, fun i => ?_⟩
  have hs := abs_le.mp (h i)
  have hlo : -2 ≤ sample i := hs.1
  have hhi : sample i ≤ 2 := hs.2
  show min (mean - 2 * std) (mean + 2 * std) ≤ mean + std * sample i ∧
    mean + std * sample i ≤ max (mean - 2 * std) (mean + 2 * std)
  rcases le_total 0 std with hstd | hstd
  · constructor
    · exact min_le_iff.mpr (Or.inl (by nlinarith))
    · exact le_max_iff.mpr (Or.inr (by nlinarith))
  · constructor
    · exact min_le_iff.mpr (Or.inr (by nlinarith))
    · exact le_max_iff.mpr (Or.inl (by nlinarith))

/-- Witness for C2 at a concrete tensor, with a negative `std = -1`,
showing in particular that nothing rejects `std ≤ 0`. -/
theorem C2_truncated_normal_witness :
    (∀ i : ℕ, |(fun _ : ℕ => (2 : ℝ)) i| ≤ 2) ∧
      ((truncated_normal_ { shape := [3], data := fun _ => 0 } 0 (-1) fun _ => 2).shape =
          (({ shape := [3], data := fun _ => 0 } : Tensor)).shape ∧
        (∀ i, (truncated_normal_ { shape := [3], data := fun _ => 0 } 0 (-1) fun _ => 2).data i =
          0 + (-1) * (fun _ : ℕ => (2 : ℝ)) i) ∧
        ∀ i,
          min (0 - 2 * (-1 : ℝ)) (0 + 2 * (-1 : ℝ)) ≤
              (truncated_normal_ { shape := [3], data := fun _ => 0 } 0 (-1) fun _ => 2).data i ∧
            (truncated_normal_ { shape := [3], data := fun _ => 0 } 0 (-1) fun _ => 2).data i ≤
              max (0 - 2 * (-1 : ℝ)) (0 + 2 * (-1 : ℝ))) :=
  ⟨fun _ => by norm_num,
    C2_truncated_normal { shape := [3], data := fun _ => 0 } 0 (-1) (fun _ => 2)
      (fun _ => by norm_num)⟩

/-- Claim C7: `maml_fc_init_` truncated-normal-initializes a present
weight with mean 0 and std 0.01, zeroes a present bias, is a no-op on
absent attributes, and on a `(64, 64)` weight and `(64,)` bias leaves the
bias exactly zero and every weight value within `[-0.02, 0.02]`. -/
theorem C7_maml_fc_init (e : Entropy) (fw fb : ℕ → ℝ) (wo bo : Option (Option Tensor))
    (h : ∀ i, |e.trunc i| ≤ 2) : C7Prop e fw fb wo bo := by
  refine ⟨fun w b => rfl, fun a b => rfl, rfl, rfl,
    ⟨_, rfl, rfl, fun i => ?_⟩, ⟨_, rfl, rfl, fun j => rfl⟩⟩
  show |(0 : ℝ) + 0.01 * e.trunc (Nat.pair 0 i)| ≤ 0.02
  have h2 := abs_le.mp (h (Nat.pair 0 i))
  rw [abs_le]
  constructor <;> nlinarith [h2.1, h2.2]

/-- Witness for C7 at the concrete entropy `entropyA`. -/
theorem C7_maml_fc_init_witness :
    (∀ i, |entropyA.trunc i| ≤ 2) ∧
      C7Prop entropyA (fun _ => 0) (fun _ => 0) none none :=
  ⟨fun _ => by norm_num [entropyA],
    C7_maml_fc_init entropyA (fun _ => 0) (fun _ => 0) none none
      (fun _ => by norm_num [entropyA])⟩

/-- Claim C9: `maml_init_` Xavier-uniform-initializes the weight with
gain 1.0 and zeroes the bias when both are present, and fails (raises)
on a module lacking a weight or bias attribute, where `maml_fc_init_`
silently skips instead. -/
theorem C9_maml_init (w b : Tensor) (wo bo : Option (Option Tensor)) (e : Entropy) :
    maml_init_ { weight := some (some w), bias := some (some b) } e =
      .ok { weight := some (some (xavier_uniform_ w 1 (e.child 0).unif))
            bias := some (some (constant_ b 0)) } ∧
    (maml_init_ { weight := none, bias := bo } e).toOption = none ∧
    (maml_init_ { weight := wo, bias := none } e).toOption = none ∧
    (maml_fc_init_ { weight := none, bias := bo } e).weight = none ∧
    (maml_fc_init_ { weight := wo, bias := none } e).bias = none := by
  refine ⟨rfl, rfl, ?_, rfl, rfl⟩
  rcases wo with _ | (_ | t) <;> rfl

/-- Claim C10: `MAMLFC` with an empty `sizes` list raises an index
error; with `sizes = [h]` it builds exactly one `input_size → h` block
and an `h → output_size` output layer initialized by `maml_fc_init_`;
and `maml_fc_init_` skips a weight or bias attribute that is present but
`None`, exactly as it skips an absent one. -/
theorem C10_mamlfc_edges (inS outS hsz : ℕ) (e : Entropy) (a b : Option (Option Tensor)) :
    (MAMLFC.construct inS outS [] e).toOption = none ∧
    (∃ fc, MAMLFC.construct inS outS [hsz] e = .ok fc ∧
        fc.blocks = [MAMLLinearBlock.construct inS hsz (e.child 0)] ∧
        fc.out.inFeatures = hsz ∧ fc.out.outFeatures = outS ∧
        fc.out.weight =
          truncated_normal_ (Linear.make hsz outS true (e.child 1)).weight 0 0.01
            ((e.child 2).child 0).trunc ∧
        (∃ bb, fc.out.bias = some bb ∧ ∀ j, bb.data j = 0) ∧
        fc.inputSize = inS) ∧
    (maml_fc_init_ { weight := some none, bias := b } e).weight = some none ∧
    (maml_fc_init_ { weight := a, bias := some none } e).bias = some none ∧
    (maml_fc_init_ { weight := none, bias := b } e).weight = none ∧
    (maml_fc_init_ { weight := a, bias := none } e).bias = none :=
  ⟨rfl, ⟨_, rfl, rfl, rfl, rfl, rfl, ⟨_, rfl, fun j => rfl⟩, rfl⟩, rfl, rfl, rfl, rfl⟩

/-- Claim C3: the batch-norm layers built inside `MAMLLinearBlock` and
`MAMLConvBlock` have `affine = True`, momentum `0.999`, epsilon `1e-3`,
and no running-statistics tracking; a forward step never changes the
layer and always normalizes with the current batch's statistics,
whatever the training mode — in particular a whole sequence of forward
calls leaves the layer unchanged. -/
theorem C3_batchnorm_config (inS outS inC outC : ℕ) (kern : ℕ × ℕ) (mp : Bool) (mpf : ℚ)
    (e : Entropy) (training : Bool) (x : Tensor) (calls : List (Bool × Tensor)) :
    ((MAMLLinearBlock.construct inS outS e).normalize.affine = true ∧
      (MAMLLinearBlock.construct inS outS e).normalize.momentum = 0.999 ∧
      (MAMLLinearBlock.construct inS outS e).normalize.eps = 1e-3 ∧
      (MAMLLinearBlock.construct inS outS e).normalize.trackRunningStats = false ∧
      (MAMLLinearBlock.construct inS outS e).normalize.runningMean = none ∧
      (MAMLLinearBlock.construct inS outS e).normalize.runningVar = none ∧
      (MAMLLinearBlock.construct inS outS e).normalize.step training x =
        ((MAMLLinearBlock.construct inS outS e).normalize.batchNormalize x,
          (MAMLLinearBlock.construct inS outS e).normalize) ∧
      calls.foldl (fun bn p => (bn.step p.1 p.2).2)
          (MAMLLinearBlock.construct inS outS e).normalize =
        (MAMLLinearBlock.construct inS outS e).normalize) ∧
    ((MAMLConvBlock.construct inC outC kern mp mpf e).normalize.affine = true ∧
      (MAMLConvBlock.construct inC outC kern mp mpf e).normalize.momentum = 0.999 ∧
      (MAMLConvBlock.construct inC outC kern mp mpf e).normalize.eps = 1e-3 ∧
      (MAMLConvBlock.construct inC outC kern mp mpf e).normalize.trackRunningStats = false ∧
      (MAMLConvBlock.construct inC outC kern mp mpf e).normalize.runningMean = none ∧
      (MAMLConvBlock.construct inC outC kern mp mpf e).normalize.runningVar = none ∧
      (MAMLConvBlock.construct inC outC kern mp mpf e).normalize.step training x =
        ((MAMLConvBlock.construct inC outC kern mp mpf e).normalize.batchNormalize x,
          (MAMLConvBlock.construct inC outC kern mp mpf e).normalize) ∧
      calls.foldl (fun bn p => (bn.step p.1 p.2).2)
          (MAMLConvBlock.construct inC outC kern mp mpf e).normalize =
        (MAMLConvBlock.construct inC outC kern mp mpf e).normalize) := by
  have hlin : ∀ (tr : Bool) (y : Tensor),
      (MAMLLinearBlock.construct inS outS e).normalize.step tr y =
        ((MAMLLinearBlock.construct inS outS e).normalize.batchNormalize y,
          (MAMLLinearBlock.construct inS outS e).normalize) := by
    intro tr y
    cases tr <;> rfl
  have hconv : ∀ (tr : Bool) (y : Tensor),
      (MAMLConvBlock.construct inC outC kern mp mpf e).normalize.step tr y =
        ((MAMLConvBlock.construct inC outC kern mp mpf e).normalize.batchNormalize y,
          (MAMLConvBlock.construct inC outC kern mp mpf e).normalize) := by
    intro tr y
    cases tr <;> rfl
  have hfold : ∀ (bn : BatchNorm), (∀ (tr : Bool) (y : Tensor), (bn.step tr y).2 = bn) →
      ∀ cs : List (Bool × Tensor), cs.foldl (fun b p => (b.step p.1 p.2).2) bn = bn := by
    intro bn hb cs
    induction cs with
    | nil => rfl
    | cons p ps ih => rw [List.foldl_cons, hb p.1 p.2, ih]
  refine ⟨⟨rfl, rfl, rfl, rfl, rfl, rfl, hlin training x, ?_⟩,
    ⟨rfl, rfl, rfl, rfl, rfl, rfl, hconv training x, ?_⟩⟩
  · exact hfold _ (fun tr y => by rw [hlin tr y]) calls
  · exact hfold _ (fun tr y => by rw [hconv tr y]) calls

/-- Claim C4 (amended): with pooling, the pool uses kernel and stride
`int(2 * max_pool_factor)` — the float truncated to an integer — with no
padding and floor mode, and the convolution gets stride 1; without
pooling, the pool is the identity and the convolution's stride is
`int(2 * max_pool_factor)`.  The convolution always has padding 1, a
bias initialized to zero, and a Xavier-uniform weight. -/
theorem C4_convblock (inC outC : ℕ) (kern : ℕ × ℕ) (mpf : ℚ) (e : Entropy) :
    (MAMLConvBlock.construct inC outC kern true mpf e).maxPool =
      some { kernel := (blockStride mpf, blockStride mpf)
             stride := (blockStride mpf, blockStride mpf)
             padding := 0
             ceilMode := false } ∧
    (MAMLConvBlock.construct inC outC kern true mpf e).conv.stride = (1, 1) ∧
    (MAMLConvBlock.construct inC outC kern false mpf e).maxPool = none ∧
    (MAMLConvBlock.construct inC outC kern false mpf e).conv.stride =
      (blockStride mpf, blockStride mpf) ∧
    ∀ mp : Bool,
      (MAMLConvBlock.construct inC outC kern mp mpf e).conv.padding = 1 ∧
      (∃ bb, (MAMLConvBlock.construct inC outC kern mp mpf e).conv.bias = some bb ∧
        ∀ i, bb.data i = 0) ∧
      (MAMLConvBlock.construct inC outC kern mp mpf e).conv.weight =
        xavier_uniform_
          (Conv2d.make inC outC kern
            (if mp then (1, 1) else (blockStride mpf, blockStride mpf)) 1 true
            (e.child 0)).weight 1 ((e.child 1).child 0).unif := by
  refine ⟨rfl, rfl, rfl, rfl, fun mp => ?_⟩
  cases mp <;> exact ⟨rfl, ⟨_, rfl, fun i => rfl⟩, rfl⟩

/-- Counterexample to claim C4 as stated: at `max_pool_factor = 3/4` the
code's pool kernel is `int(2 * 0.75) = 1`, not `2 * 0.75 = 1.5`. -/
theorem C4_counterexample :
    ((MAMLConvBlock.construct 1 1 (3, 3) true (3 / 4) entropyA).maxPool.map
        (fun p => (p.kernel.1 : ℚ))).getD 0 = 1 ∧
      ¬ ((MAMLConvBlock.construct 1 1 (3, 3) true (3 / 4) entropyA).maxPool.map
          (fun p => (p.kernel.1 : ℚ))).getD 0 = 2 * (3 / 4 : ℚ) := by
  have hstride : blockStride (3 / 4) = 1 := by
    have hfloor : ⌊(2 * (3 / 4) : ℚ)⌋ = 1 := by
      rw [Int.floor_eq_iff] <;> norm_num
    rw [blockStride, pyInt, if_pos (by norm_num), hfloor]
    rfl
  have hk : ((MAMLConvBlock.construct 1 1 (3, 3) true (3 / 4) entropyA).maxPool.map
      (fun p => (p.kernel.1 : ℚ))).getD 0 = ((blockStride (3 / 4) : ℕ) : ℚ) := rfl
  rw [hk, hstride]
  norm_num

/-- Claim C8 (amended): every bias tensor constructed by the library is
initialized to exactly zero — including `OmniglotCNN`'s final linear
layer, whose bias is multiplied by `0.0`; it is that layer's weight, not
its bias, that is randomized. -/
theorem C8_all_biases_zero (size inS outS inC outC : ℕ) (kern : ℕ × ℕ) (mp : Bool) (mpf : ℚ)
    (oS hid lay s0 : ℕ) (rest : List ℕ) (e : Entropy) :
    (∀ i, (AddBias.construct size).bias.data i = 0) ∧
    (∃ bb, (MAMLLinearBlock.construct inS outS e).linear.bias = some bb ∧
      ∀ i, bb.data i = 0) ∧
    (∃ nb, (MAMLLinearBlock.construct inS outS e).normalize.bias = some nb ∧
      ∀ i, nb.data i = 0) ∧
    (∃ cb, (MAMLConvBlock.construct inC outC kern mp mpf e).conv.bias = some cb ∧
      ∀ i, cb.data i = 0) ∧
    (∃ nb, (MAMLConvBlock.construct inC outC kern mp mpf e).normalize.bias = some nb ∧
      ∀ i, nb.data i = 0) ∧
    (∃ fc, MAMLFC.construct inS outS (s0 :: rest) e = .ok fc ∧
      ∃ ob, fc.out.bias = some ob ∧ ∀ j, ob.data j = 0) ∧
    (∃ lb, (OmniglotCNN.construct oS hid lay e).linear.bias = some lb ∧
      ∀ j, lb.data j = 0) ∧
    (∃ lb, (MiniImagenetCNN.construct oS hid lay e).linear.bias = some lb ∧
      ∀ j, lb.data j = 0) := by
  refine ⟨fun i => rfl, ⟨_, rfl, fun i => rfl⟩, ⟨_, rfl, fun i => rfl⟩, ?_,
    ⟨_, rfl, fun i => rfl⟩, ⟨_, rfl, _, rfl, fun j => rfl⟩,
    ⟨_, rfl, fun j => mul_zero _⟩, ⟨_, rfl, fun j => rfl⟩⟩
  cases mp <;> exact ⟨_, rfl, fun i => rfl⟩

/-- Counterexample to claim C8 as stated: under `entropyB` (all raw
draws equal to 1) `OmniglotCNN`'s final linear bias is exactly zero, not
randomized — while the randomizer that layer actually applies (to its
weight, `normal_`) yields 1 at that entropy. -/
theorem C8_counterexample :
    (∃ lb, (OmniglotCNN.construct 5 64 4 entropyB).linear.bias = some lb ∧ lb.data 0 = 0) ∧
      (normal_ (Linear.make 64 5 true (entropyB.child 1)).weight (entropyB.child 2).gauss).data 0 =
        1 ∧
      (0 : ℝ) ≠ 1 :=
  ⟨⟨_, rfl, mul_zero _⟩, rfl, by norm_num⟩

/-- Dimensions of the blocks produced by `fcBlocks`: one block per pair,
with exactly that pair's dimensions. -/
theorem fcBlocks_dims (e : Entropy) :
    ∀ (ps : List (ℕ × ℕ)) (idx : ℕ),
      (fcBlocks e ps idx).map (fun blk => (blk.linear.inFeatures, blk.linear.outFeatures)) = ps
  | [], _ => rfl
  | (a, b) :: ps, idx => by
    rw [fcBlocks, List.map_cons, fcBlocks_dims e ps (idx + 1)]
    rfl

set_option maxRecDepth 8000 in
set_option maxHeartbeats 2000000 in
/-- Claim C5: `MiniImagenetCNN(output_size=5, hidden_size=32)` maps a
`(N, 3, 84, 84)` input to a `(N, 5)` output, and its convolutional base
maps it to `(N, 32, 5, 5)`, which flattens to exactly
`25 * hidden_size` features per example. -/
theorem C5_miniimagenet_shape (N : ℕ) (f : ℕ → ℝ) (e : Entropy) (training : Bool) :
    ((MiniImagenetCNN.construct 5 32 4 e).base.forward training
        { shape := [N, 3, 84, 84], data := f }).shape = [N, 32, 5, 5] ∧
      32 * 5 * 5 = 25 * 32 ∧
      ((MiniImagenetCNN.construct 5 32 4 e).forward training
        { shape := [N, 3, 84, 84], data := f }).shape = [N, 5] := by
  have hs : blockStride ((4 / 4 : ℕ) : ℚ) = 2 := by
    have hq : ((4 / 4 : ℕ) : ℚ) = 1 := by norm_num
    have hfloor : ⌊(2 * 1 : ℚ)⌋ = 2 := by
      rw [Int.floor_eq_iff] <;> norm_num
    rw [blockStride, hq, pyInt, if_pos (by norm_num), hfloor]
    rfl
  have h1 := MAMLConvBlock.forward_shape_pool 3 32 ((4 / 4 : ℕ) : ℚ) ((e.child 0).child 0)
    training { shape := [N, 3, 84, 84], data := f } rfl
  rw [hs] at h1
  norm_num at h1
  have h2 := MAMLConvBlock.forward_shape_pool 32 32 ((4 / 4 : ℕ) : ℚ) ((e.child 0).child 1)
    training _ h1
  rw [hs] at h2
  norm_num at h2
  have h3 := MAMLConvBlock.forward_shape_pool 32 32 ((4 / 4 : ℕ) : ℚ) ((e.child 0).child 2)
    training _ h2
  rw [hs] at h3
  norm_num at h3
  have h4 := MAMLConvBlock.forward_shape_pool 32 32 ((4 / 4 : ℕ) : ℚ) ((e.child 0).child 3)
    training _ h3
  rw [hs] at h4
  norm_num at h4
  have hbaseShape : ((MiniImagenetCNN.construct 5 32 4 e).base.forward training
      { shape := [N, 3, 84, 84], data := f }).shape = [N, 32, 5, 5] := h4
  refine ⟨hbaseShape, by norm_num, ?_⟩
  have hnum : ((MiniImagenetCNN.construct 5 32 4 e).base.forward training
      { shape := [N, 3, 84, 84], data := f }).numel = N * 800 := by
    rw [Tensor.numel, hbaseShape]
    norm_num
  have hview : (((MiniImagenetCNN.construct 5 32 4 e).base.forward training
      { shape := [N, 3, 84, 84], data := f }).view2 (25 * 32)).shape = [N, 800] := by
    show [((MiniImagenetCNN.construct 5 32 4 e).base.forward training
      { shape := [N, 3, 84, 84], data := f }).numel / (25 * 32), 25 * 32] = [N, 800]
    rw [hnum]
    norm_num [Nat.mul_div_cancel]
  show ((MiniImagenetCNN.construct 5 32 4 e).linear.forward
      (((MiniImagenetCNN.construct 5 32 4 e).base.forward training
        { shape := [N, 3, 84, 84], data := f }).view2 (25 * 32))).shape = [N, 5]
  rw [Linear.forward_batch_shape _ _ hview]
  rfl

/-- Claim C6: `MAMLFC(input_size, output_size, sizes)` builds one linear
block per entry of `sizes` with consecutive dimensions, followed by a
linear `sizes[-1] → output_size` output layer initialized by
`maml_fc_init_` with an all-zero bias, and its forward flattens the
input to `input_size` features; in particular
`MAMLFC(input_size=10, output_size=3)` maps a `(N, 10)` input to a
`(N, 3)` output. -/
theorem C6_mamlfc (inS outS s0 : ℕ) (rest : List ℕ) (e : Entropy) (training : Bool)
    (N : ℕ) (f : ℕ → ℝ) :
    (∃ fc, MAMLFC.construct inS outS (s0 :: rest) e = .ok fc ∧
        fc.blocks.map (fun blk => (blk.linear.inFeatures, blk.linear.outFeatures)) =
          (inS :: (s0 :: rest).dropLast).zip (s0 :: rest) ∧
        fc.out.inFeatures = rest.getLastD s0 ∧
        fc.out.outFeatures = outS ∧
        fc.out.weight =
          truncated_normal_
            (Linear.make (rest.getLastD s0) outS true (e.child (s0 :: rest).length)).weight 0 0.01
            ((e.child ((s0 :: rest).length + 1)).child 0).trunc ∧
        (∃ ob, fc.out.bias = some ob ∧ ∀ j, ob.data j = 0) ∧
        ∀ x : Tensor, fc.forward training x =
          fc.out.forward
            (fc.blocks.foldl (fun acc blk => blk.forward training acc) (x.view2 inS))) ∧
    ∃ fc, MAMLFC.construct 10 3 [256, 128, 64, 64] e = .ok fc ∧
      (fc.forward training { shape := [N, 10], data := f }).shape = [N, 3] ∧
      (∃ ob, fc.out.bias = some ob ∧ ∀ j, ob.data j = 0) := by
  constructor
  · refine ⟨_, rfl, ?_, rfl, rfl, rfl, ⟨_, rfl, fun j => rfl⟩, fun x => rfl⟩
    rw [List.map_cons, fcBlocks_dims e, List.zip_cons_cons]
    rfl
  · refine ⟨{ blocks := [MAMLLinearBlock.construct 10 256 (e.child 0),
                MAMLLinearBlock.construct 256 128 (e.child 1),
                MAMLLinearBlock.construct 128 64 (e.child 2),
                MAMLLinearBlock.construct 64 64 (e.child 3)],
              out := Linear.fromPy (Linear.make 64 3 true (e.child 4))
                (maml_fc_init_ (Linear.make 64 3 true (e.child 4)).toPy (e.child 5)),
              inputSize := 10 }, rfl, ?_, ⟨_, rfl, fun j => rfl⟩⟩
    have h0 : (({ shape := [N, 10], data := f } : Tensor).view2 10).shape = [N, 10] := by
      show [({ shape := [N, 10], data := f } : Tensor).numel / 10, 10] = [N, 10]
      have : ({ shape := [N, 10], data := f } : Tensor).numel = N * 10 := by
        rw [Tensor.numel]
        norm_num
      rw [this, Nat.mul_div_cancel _ (by norm_num : 0 < 10)]
    have h1 := MAMLLinearBlock.forward_shape 10 256 (e.child 0) training _ h0
    have h2 := MAMLLinearBlock.forward_shape 256 128 (e.child 1) training _ h1
    have h3 := MAMLLinearBlock.forward_shape 128 64 (e.child 2) training _ h2
    have h4 := MAMLLinearBlock.forward_shape 64 64 (e.child 3) training _ h3
    unfold MAMLFC.forward
    simp only [List.foldl_cons, List.foldl_nil]
    rw [Linear.forward_batch_shape _ _ h4]
    rfl

/-- Claim C1 (amended): under a bounded entropy source, every weight the
library explicitly initializes at construction is truncated-normal on
`[-2, 2]` scaled by std `0.01` — including `MAMLFC`'s output layer —
except convolutional weights and `MiniImagenetCNN`'s output layer, which
are Xavier-uniform initialized (gain 1), and `OmniglotCNN`'s output
layer, whose weight is a raw standard-normal draw. -/
theorem C1_initialization_invariant (e : Entropy) (h : e.Bounded) : C1Prop e := by
  obtain ⟨ht, hu⟩ := h
  have habs : ∀ (k : ℕ), |(0 : ℝ) + 0.01 * e.trunc k| ≤ 2 * 0.01 := by
    intro k
    have h2 := abs_le.mp (ht k)
    rw [abs_le]
    constructor <;> nlinarith [h2.1, h2.2]
  have hxav : ∀ (shape : List ℕ) (k : ℕ),
      |xavierBound 1 shape * e.unif k| ≤ xavierBound 1 shape := by
    intro shape k
    have hxb : 0 ≤ xavierBound 1 shape := by
      rw [xavierBound]
      positivity
    rw [abs_mul, abs_of_nonneg hxb]
    have h1 := hu k
    nlinarith [abs_nonneg (e.unif k)]
  refine ⟨fun inS outS => ⟨rfl, fun i => ?_⟩,
    fun inC outC kern mp mpf => ⟨rfl, fun i => ?_⟩,
    fun inS outS s0 rest => ⟨_, rfl, rfl, fun i => ?_⟩,
    fun oS hid lay => ⟨rfl, fun i => ?_⟩,
    fun oS hid lay i => rfl⟩
  · exact habs (Nat.pair 1 (Nat.pair 0 i))
  · exact hxav [outC, inC, kern.1, kern.2] (Nat.pair 1 (Nat.pair 0 i))
  · exact habs (Nat.pair ((s0 :: rest).length + 1) (Nat.pair 0 i))
  · exact hxav [oS, 25 * hid] (Nat.pair 2 (Nat.pair 0 i))

/-- Witness for the amended C1 at the concrete entropy `entropyA`. -/
theorem C1_initialization_invariant_witness :
    Entropy.Bounded entropyA ∧ C1Prop entropyA :=
  ⟨⟨fun _ => by norm_num [entropyA], fun _ => by norm_num [entropyA]⟩,
    C1_initialization_invariant entropyA
      ⟨fun _ => by norm_num [entropyA], fun _ => by norm_num [entropyA]⟩⟩

/-- Counterexample to claim C1 as stated: `MAMLFC`'s output layer weight
is not Xavier-uniform initialized.  Under `entropyA` (all truncated
draws 2, all uniform draws 0) the constructed output weight entry is
`0.01 * 2 = 1/50`, while a Xavier-uniform initialization of that layer
from the same entropy source would put `0` everywhere. -/
theorem C1_counterexample :
    (∃ fc, MAMLFC.construct 2 3 [2] entropyA = .ok fc ∧ fc.out.weight.data 0 = 1 / 50) ∧
      (xavier_uniform_ (Linear.make 2 3 true (entropyA.child 1)).weight 1
          ((entropyA.child 2).child 0).unif).data 0 = 0 ∧
      (1 / 50 : ℝ) ≠ 0 := by
  refine ⟨⟨_, rfl, ?_⟩, ?_, by norm_num⟩
  · show (0 : ℝ) + 0.01 * 2 = 1 / 50
    norm_num
  · show xavierBound 1 [3, 2] * 0 = 0
    exact mul_zero _

end Learn2Learn

